import Mathlib

/-!
Verification of the media-analysis core (src-tauri/src/analyse.rs,
lib.rs, types.rs) against its specification.

The Rust code is shallowly embedded: pure helpers become Lean functions;
every effectful step (filesystem metadata, image decoding, EXIF parsing,
the ffprobe / ffmpeg / pdftoppm subprocesses, the PDF parser, the HTTP
call to the AI endpoint) is modelled by an oracle field in an environment
record, and each Rust function branches on its oracles exactly as the
source branches on the corresponding call results.  Rust `f64` values
(durations, frame rates, PDF page geometry, confidence) are modelled as
rationals; the decimal parser is modelled for plain decimal literals,
which is the only form the claims exercise.  Rust `String` is modelled by
`String`; byte-lexicographic order on UTF-8 strings coincides with the
codepoint-lexicographic order used here, and the ASCII-only case folding
used by the code (`eq_ignore_ascii_case`, and `to_lowercase` applied to
ASCII data) is modelled by `asciiLowerChar`.
-/

/-- ASCII lower-casing of one character: maps A-Z to a-z and leaves
everything else unchanged.  This is exactly Rust `to_ascii_lowercase`,
and agrees with Rust `to_lowercase` on ASCII input (the only input the
claims exercise). -/
def asciiLowerChar (c : Char) : Char :=
  if 65 ≤ c.toNat ∧ c.toNat ≤ 90 then Char.ofNat (c.toNat + 32) else c

/-- ASCII lower-casing of a string, character by character. -/
def asciiLowerStr (s : String) : String :=
  (s.toList.map asciiLowerChar).asString

/-- Rust `str::eq_ignore_ascii_case`: equality after ASCII case folding. -/
def eqIgnoreAsciiCase (a b : String) : Bool :=
  asciiLowerStr a == asciiLowerStr b

/-- The character class of the splitting regex `[^A-Za-z0-9]+` in
analyse.rs, complemented: alphanumeric ASCII. -/
def isAlnumAscii (c : Char) : Bool :=
  (65 ≤ c.toNat && c.toNat ≤ 90) || (97 ≤ c.toNat && c.toNat ≤ 122) ||
    (48 ≤ c.toNat && c.toNat ≤ 57)

/-- ASCII decimal digit test. -/
def isDigitAscii (c : Char) : Bool :=
  48 ≤ c.toNat && c.toNat ≤ 57

/-- ASCII whitespace test (the whitespace actually occurring in the
claims; Rust `str::trim` also strips other Unicode whitespace). -/
def isWsAscii (c : Char) : Bool :=
  c = ' ' || c = '\t' || c = '\n' || c = '\r'

/-- Rust `str::trim`, modelled for ASCII whitespace. -/
def trimAscii (s : String) : String :=
  ((s.toList.dropWhile isWsAscii).reverse.dropWhile isWsAscii).reverse.asString

/-- Worker for `splitRuns`: `acc` holds the reversed current
alphanumeric run. -/
def splitRunsAux : List Char → List Char → List (List Char)
  | [], acc => if acc = [] then [] else [acc.reverse]
  | c :: cs, acc =>
    if isAlnumAscii c then splitRunsAux cs (c :: acc)
    else if acc = [] then splitRunsAux cs []
    else acc.reverse :: splitRunsAux cs []

/-- Splitting on the regex `[^A-Za-z0-9]+` (`SPLIT_RE.split` in
analyse.rs): the maximal alphanumeric runs, in order.  The regex split
additionally yields empty fragments at the ends; every consumer of this
function discards fragments shorter than 3 characters, so the empty
fragments are dropped here. -/
def splitRuns (l : List Char) : List (List Char) :=
  splitRunsAux l []

/-- Rust `str::split(sep)`: fragments between occurrences of `sep`,
empty fragments included. -/
def splitOnChar (sep : Char) : List Char → List (List Char)
  | [] => [[]]
  | c :: cs =>
    if c = sep then [] :: splitOnChar sep cs
    else match splitOnChar sep cs with
      | [] => [[c]]
      | f :: rest => (c :: f) :: rest

/-- Value of an ASCII digit. -/
def digitVal (c : Char) : Nat := c.toNat - 48

/-- Natural number denoted by a list of ASCII digits. -/
def digitsToNat (l : List Char) : Nat :=
  l.foldl (fun acc c => 10 * acc + digitVal c) 0

/-- Unsigned decimal literal: `digits`, `digits.digits`, `digits.` or
`.digits`, as accepted by Rust `f64::from_str` (exponent and the special
`inf` / `nan` forms are outside the fragment the claims exercise). -/
def parseDecimalCore (l : List Char) : Option ℚ :=
  let intPart := l.takeWhile isDigitAscii
  let rest := l.dropWhile isDigitAscii
  match rest with
  | [] => if intPart.isEmpty then none else some (digitsToNat intPart : ℚ)
  | '.' :: frac =>
    if frac.all isDigitAscii && !(intPart.isEmpty && frac.isEmpty) then
      some ((digitsToNat intPart : ℚ) + (digitsToNat frac : ℚ) / (10 : ℚ) ^ frac.length)
    else none
  | _ => none

/-- Signed decimal literal (Rust `str::parse::<f64>` on plain decimal
forms), exact as a rational. -/
def parseDecimal : List Char → Option ℚ
  | '-' :: r => (parseDecimalCore r).map (fun q => -q)
  | '+' :: r => parseDecimalCore r
  | r => parseDecimalCore r

/-- Boolean lexicographic order on character lists.  On UTF-8 data the
byte-wise order used by Rust `Vec<String>::sort` coincides with this
codepoint-wise order. -/
def lexLe : List Char → List Char → Bool
  | [], _ => true
  | _ :: _, [] => false
  | a :: as, b :: bs => if a = b then lexLe as bs else decide (a < b)

/-- The ordering proposition used to model `Vec<String>::sort`. -/
def strLeP (a b : String) : Prop := lexLe a.toList b.toList = true

instance : DecidableRel strLeP := fun _ _ => instDecidableEqBool _ _

/-- Insertion of one string into a lexicographically sorted list. -/
def insertStr (a : String) : List String → List String
  | [] => [a]
  | b :: l => if lexLe a.toList b.toList then a :: b :: l else b :: insertStr a l

/-- Model of `Vec<String>::sort` (byte-lexicographic; only the sorted
result matters, not the algorithm). -/
def sortStrings : List String → List String
  | [] => []
  | b :: l => insertStr b (sortStrings l)

/-- Model of `Vec::dedup`: removal of consecutive duplicates. -/
def dedupAdj : List String → List String
  | [] => []
  | [a] => [a]
  | a :: b :: rest => if a = b then dedupAdj (b :: rest) else a :: dedupAdj (b :: rest)

/-- Rust `Path::extension` on the display name: the fragment of the last
path component after its last dot, provided the component has a nonempty
stem before that dot. -/
def pathExtension (name : String) : Option String :=
  let base := (name.toList.reverse.takeWhile (fun c => c ≠ '/')).reverse
  let afterLast := (base.reverse.takeWhile (fun c => c ≠ '.')).reverse
  if afterLast.length + 2 ≤ base.length then some afterLast.asString else none

/-!  Data model (types.rs).  Every structure mirrors the Rust struct of
the same name; the `analysis!` macro in types.rs derives `Default`, so
every field here carries the corresponding Rust default value. -/

deriving instance DecidableEq for Except

/-- types.rs `FileType`. -/
inductive FileType
  | Pdf
  | Image
  | Video
  | Other
deriving DecidableEq

/-- types.rs `LoadedFile`. -/
structure LoadedFile where
  name : String
  path : String
deriving DecidableEq

/-- types.rs `Metadata`. -/
structure Metadata where
  file_type : String := ""
  mime : Option String := none
  size_bytes : Option Nat := none
  created_at : Option String := none
  modified_at : Option String := none
deriving DecidableEq

/-- types.rs `Video`: `f64` fields modelled as rationals. -/
structure Video where
  width : Option Nat := none
  height : Option Nat := none
  duration_sec : Option ℚ := none
  fps : Option ℚ := none
  codec : Option String := none
deriving DecidableEq

/-- types.rs `PDF`: page geometry in points, `f64` modelled as rationals. -/
structure PDF where
  page_count : Option Nat := none
  page0_width_pt : Option ℚ := none
  page0_height_pt : Option ℚ := none
deriving DecidableEq

/-- types.rs `Image`. -/
structure Image where
  width : Option Nat := none
  height : Option Nat := none
  exif_datetime : Option String := none
  phash : Option String := none
  dominant_colors : List String := []
deriving DecidableEq

/-- types.rs `Tagging`. -/
structure Tagging where
  tags : List String := []
  topics : List String := []
  raw_keywords : List String := []
deriving DecidableEq

/-- types.rs `Suggested`: `confidence` is `f32`, modelled as a rational. -/
structure Suggested where
  rename : String := ""
  reason : String := ""
  confidence : ℚ := 0
deriving DecidableEq

/-- types.rs `MediaAnalysis`. -/
structure MediaAnalysis where
  meta : Metadata := {}
  video : Video := {}
  pdf : PDF := {}
  image : Image := {}
  tagging : Tagging := {}
  suggested : Suggested := {}
deriving DecidableEq

/-!  Oracle environments for the effectful calls in analyse.rs.  Each
field records the outcome of one external interaction for the file under
analysis; an `Except` value distinguishes a hard failure of the call from
a successful return. -/

/-- Outcome of `fs::metadata`: length plus already-formatted RFC 3339
creation/modification strings (`sys_time_to_rfc3339` composed with
`md.created()` / `md.modified()`). -/
structure FsMeta where
  size : Nat := 0
  created : Option String := none
  modified : Option String := none
deriving DecidableEq

/-- The EXIF tags analyse.rs inspects (`rexif::ExifTag`); all remaining
tags are collapsed into `otherTag`. -/
inductive ExifTag
  | DateTimeOriginal
  | Make
  | Model
  | otherTag
deriving DecidableEq

/-- One parsed EXIF entry (`rexif::ExifEntry`), restricted to the fields
analyse.rs reads. -/
structure ExifEntry where
  tag : ExifTag
  value_more_readable : String
deriving DecidableEq

/-- analyse.rs `FfStream` (deserialized ffprobe stream record). -/
structure FfStream where
  codec_type : Option String := none
  codec_name : Option String := none
  width : Option Nat := none
  height : Option Nat := none
  avg_frame_rate : Option String := none
deriving DecidableEq

/-- analyse.rs `FfFormat`. -/
structure FfFormat where
  duration : Option String := none
deriving DecidableEq

/-- analyse.rs `FfProbe`. -/
structure FfProbe where
  streams : Option (List FfStream) := none
  format : Option FfFormat := none
deriving DecidableEq

/-- Outcome of running the ffprobe process (`Command::output`):
`success` is the exit status flag, `parsed` the result of
`serde_json::from_slice` on its stdout (`none` = malformed JSON). -/
structure FfRun where
  success : Bool := true
  parsed : Option FfProbe := none
deriving DecidableEq

/-- Environment of `enrich_video_ffprobe`: `found` is the
`which::which("ffprobe")` outcome, `run` the process invocation. -/
structure FfprobeEnv where
  found : Bool := false
  run : Except String FfRun := .error "ffprobe exec"
deriving DecidableEq

/-- A `lopdf::Object`, restricted to the shapes `enrich_pdf_lopdf`
distinguishes: integers, reals, arrays, and everything else. -/
inductive PdfObj
  | integer (i : Int)
  | real (q : ℚ)
  | array (xs : List PdfObj)
  | nonNumeric

/-- Outcome of `lopdf::Document::load` plus the page walk: the page
count, and the `MediaBox` object of the first page when the first page
exists, its dictionary loads, and the key is present (`none` collapses
those three silent skips, which analyse.rs treats identically). -/
structure PdfDoc where
  pageCount : Nat := 0
  firstPageMediaBox : Option PdfObj := none

/-- Oracles for `prepare_media_previews` and its three workers.  Each
`Except` failure corresponds to an `Err` produced via `ioerr` in the
source and each `Bool` to a `which` lookup or an exit-status test. -/
structure PreviewEnv where
  imageOpen : Except String (Nat × Nat) := .ok (1, 1)
  imageEncodeB64 : Except String String := .ok ""
  ffmpegFound : Bool := false
  videoTempdir : Except String Unit := .ok ()
  ffmpegRun : Except String Bool := .ok true
  frameReads : Except String (List String) := .ok []
  pdftoppmFound : Bool := false
  pdfTempdir : Except String Unit := .ok ()
  pdftoppmOk : Except String Bool := .ok true
  rasterOpen : Except String (Nat × Nat) := .ok (1, 1)
  rasterEncodeB64 : Except String String := .ok ""
deriving DecidableEq

/-- analyse.rs `AiTagOut` (the response body of the AI endpoint). -/
structure AiTagOut where
  tags : Option (List String) := none
  topics : Option (List String) := none
  raw_keywords : Option (List String) := none
  suggested : Option Suggested := none
deriving DecidableEq

/-- All oracles consulted while analysing one file. `aiEndpoint` is the
`TAGGER_ENDPOINT` environment variable; `aiResponse` is the combined
outcome of the HTTP POST and the JSON decode of its body (`none` =
transport failure, non-success response, or malformed body — analyse.rs
collapses these through two `.ok()?`). -/
structure FileEnv where
  mime : Option String := none
  fsMeta : Option FsMeta := none
  imageDimensions : Option (Nat × Nat) := none
  exifEntries : Option (List ExifEntry) := none
  ffprobe : FfprobeEnv := {}
  pdfDoc : Option PdfDoc := none
  preview : PreviewEnv := {}
  aiEndpoint : Option String := none
  aiResponse : Option AiTagOut := none

/-!  Source functions (analyse.rs, lib.rs). -/

/-- analyse.rs `get_type` (lines 100-110).  `rsplit('.').next()` always
returns `Some`: the fragment after the last dot, or the whole name when
it contains no dot; the unreachable `None => Other` arm of the source is
therefore dropped. -/
def get_type (file_name : String) : FileType :=
  let ext := (file_name.toList.reverse.takeWhile (fun c => c ≠ '.')).reverse.asString
  match asciiLowerStr ext with
  | "pdf" => FileType.Pdf
  | "png" | "jpg" | "jpeg" | "gif" | "bmp" | "webp" => FileType.Image
  | "mp4" | "mov" | "avi" | "mkv" | "webm" => FileType.Video
  | _ => FileType.Other

/-- The string tag analyse.rs assigns to `Metadata.file_type`
(analyse_single lines 44-49). -/
def fileTypeTag : FileType → String
  | FileType.Pdf => "pdf"
  | FileType.Image => "image"
  | FileType.Video => "video"
  | FileType.Other => "other"

/-- analyse.rs `STOP` (lines 122-126), verbatim. -/
def STOP : List String :=
  ["the","a","an","and","or","of","to","in","on","for","with","by",
   "at","from","is","it","this","that","v","vs","final","copy","img",
   "photo","image","video","movie","clip","scan","page","pg","doc"]

/-- analyse.rs `gather_keywords` (lines 128-138): split on runs of
non-alphanumerics, lower-case, keep tokens of length at least 3 that are
not stop words, sort, remove consecutive duplicates.  The source also
calls `trim` on each token; tokens contain no whitespace, so that call
is the identity and is dropped here. -/
def gather_keywords (name : String) : List String :=
  let toks := (splitRuns name.toList).map (fun t => (t.map asciiLowerChar).asString)
  let v := toks.filter (fun w => decide (3 ≤ w.length ∧ w ∉ STOP))
  dedupAdj (sortStrings v)

/-- analyse.rs `enrich_image_dims` (lines 153-158): the oracle is the
result of `image::image_dimensions`. -/
def enrich_image_dims (dims : Option (Nat × Nat)) (out : MediaAnalysis) : MediaAnalysis :=
  match dims with
  | some (w, h) => {out with image.width := some w, image.height := some h}
  | none => out

/-- One iteration of the entry loop of `enrich_image_exif_keywords`
(lines 162-177). -/
def exifStep (out : MediaAnalysis) (entry : ExifEntry) : MediaAnalysis :=
  match entry.tag with
  | ExifTag.DateTimeOriginal =>
    let dt := trimAscii entry.value_more_readable
    if dt ≠ "" then {out with image.exif_datetime := some dt} else out
  | ExifTag.Make | ExifTag.Model =>
    let s := asciiLowerStr entry.value_more_readable
    if s ≠ "" ∧ s ∉ out.tagging.raw_keywords then
      {out with tagging.raw_keywords := out.tagging.raw_keywords ++ [s]}
    else out
  | ExifTag.otherTag => out

/-- analyse.rs `enrich_image_exif_keywords` (lines 160-179): the oracle
is the result of `rexif::parse_file` (`none` = parse failure, silently
absorbed). -/
def enrich_image_exif_keywords (exif : Option (List ExifEntry)) (out : MediaAnalysis) :
    MediaAnalysis :=
  match exif with
  | none => out
  | some entries => entries.foldl exifStep out

/-- analyse.rs `parse_rational` (lines 213-218). -/
def parse_rational (s : String) : Option ℚ :=
  match splitOnChar '/' s.toList with
  | a :: b :: _ =>
    match parseDecimal a, parseDecimal b with
    | some x, some y => if y = 0 then none else some (x / y)
    | _, _ => none
  | _ => none

/-- analyse.rs `enrich_video_ffprobe` (lines 192-212).  The second
component is the error the caller logs (`None` = `Ok(())`); the first is
the record, including any mutations made before a failure. -/
def enrich_video_ffprobe (env : FfprobeEnv) (out : MediaAnalysis) :
    MediaAnalysis × Option String :=
  if env.found then
    match env.run with
    | Except.error e => (out, some e)
    | Except.ok r =>
      if r.success then
        match r.parsed with
        | none => (out, some "json parse")
        | some parsed =>
          let out := match parsed.format with
            | some fmt =>
              match fmt.duration with
              | some d =>
                match parseDecimal d.toList with
                | some secs => {out with video.duration_sec := some secs}
                | none => out
              | none => out
            | none => out
          let out := match parsed.streams with
            | some streams =>
              match streams.find? (fun s => s.codec_type == some "video") with
              | some vs =>
                let out := {out with video.codec := vs.codec_name,
                                     video.width := vs.width,
                                     video.height := vs.height}
                match vs.avg_frame_rate with
                | some r =>
                  match parse_rational r with
                  | some fps => {out with video.fps := some fps}
                  | none => out
                | none => out
              | none => out
            | none => out
          (out, none)
      else (out, some "ffprobe failed")
  else (out, some "ffprobe not found")

/-- analyse.rs `num_from_pdf` (lines 244-250). -/
def num_from_pdf : PdfObj → Except String ℚ
  | PdfObj.integer i => Except.ok (i : ℚ)
  | PdfObj.real q => Except.ok q
  | _ => Except.error "not a number"

/-- The difference of two `MediaBox` entries, with the evaluation order
of the source (`num_from_pdf(&arr[hi])? - num_from_pdf(&arr[lo])?`). -/
def mediaBoxDiff (hi lo : PdfObj) : Except String ℚ := do
  let h ← num_from_pdf hi
  let l ← num_from_pdf lo
  pure (h - l)

/-- analyse.rs `enrich_pdf_lopdf` (lines 224-243).  The second component
is the error the caller logs; the first is the record, including the
page count set before any geometry failure.  A first page whose
dictionary fails to load or has no `MediaBox`, a non-array `MediaBox`,
and an array of length other than 4 are all silent skips (`Ok(())`). -/
def enrich_pdf_lopdf (doc : Option PdfDoc) (out : MediaAnalysis) :
    MediaAnalysis × Option String :=
  match doc with
  | none => (out, some "pdf load failed")
  | some d =>
    let out := {out with pdf.page_count := some d.pageCount}
    match d.firstPageMediaBox with
    | some (PdfObj.array [a0, a1, a2, a3]) =>
      match mediaBoxDiff a2 a0 with
      | Except.error e => (out, some e)
      | Except.ok w =>
        match mediaBoxDiff a3 a1 with
        | Except.error e => (out, some e)
        | Except.ok h =>
          ({out with pdf.page0_width_pt := some w, pdf.page0_height_pt := some h}, none)
    | _ => (out, none)

/-- analyse.rs `MediaPreviews` (lines 256-261). -/
structure MediaPreviews where
  image_b64 : Option String := none
  video_frames_b64 : Option (List String) := none
  pdf_page0_b64 : Option String := none
deriving DecidableEq

/-- analyse.rs `read_and_downscale_image_b64` (lines 283-296): opening
the image and PNG-encoding the downscaled copy are the two fallible
steps; the pure resize arithmetic between them does not affect any
claim and is absorbed into the encode oracle. -/
def read_and_downscale_image_b64 (env : PreviewEnv) : Except String String :=
  match env.imageOpen with
  | Except.error e => Except.error ("image open: " ++ e)
  | Except.ok _ =>
    match env.imageEncodeB64 with
    | Except.error e => Except.error ("png encode: " ++ e)
    | Except.ok b64 => Except.ok b64

/-- analyse.rs `extract_video_keyframes_b64` (lines 298-326): a missing
ffmpeg binary and a non-zero exit status degrade to an empty frame list;
temp-dir creation, process spawn, and frame reads (collapsed into
`frameReads` together with the directory listing) propagate errors.  The
collected base64 frames are sorted and truncated to `max_frames`. -/
def extract_video_keyframes_b64 (env : PreviewEnv) (max_frames : Nat) :
    Except String (List String) :=
  if env.ffmpegFound then
    match env.videoTempdir with
    | Except.error e => Except.error ("tempdir: " ++ e)
    | Except.ok _ =>
      match env.ffmpegRun with
      | Except.error e => Except.error ("ffmpeg exec: " ++ e)
      | Except.ok false => Except.ok []
      | Except.ok true =>
        match env.frameReads with
        | Except.error e => Except.error e
        | Except.ok frames =>
          let frames := sortStrings frames
          Except.ok (if max_frames < frames.length then frames.take max_frames else frames)
  else Except.ok []

/-- analyse.rs `rasterize_pdf_page0_b64` (lines 328-354): a missing
pdftoppm binary, a non-zero exit status, and a missing output file
(collapsed into `pdftoppmOk`) degrade to `none`; temp-dir creation,
process spawn, raster decode, and PNG re-encode propagate errors. -/
def rasterize_pdf_page0_b64 (env : PreviewEnv) : Except String (Option String) :=
  if env.pdftoppmFound then
    match env.pdfTempdir with
    | Except.error e => Except.error ("tempdir: " ++ e)
    | Except.ok _ =>
      match env.pdftoppmOk with
      | Except.error e => Except.error ("pdftoppm exec: " ++ e)
      | Except.ok false => Except.ok none
      | Except.ok true =>
        match env.rasterOpen with
        | Except.error e => Except.error ("open raster: " ++ e)
        | Except.ok _ =>
          match env.rasterEncodeB64 with
          | Except.error e => Except.error ("png encode: " ++ e)
          | Except.ok b64 => Except.ok (some b64)
  else Except.ok none

/-- The image-extension table of `prepare_media_previews` (line 266). -/
def imageExts : List String := ["png", "jpg", "jpeg", "gif", "bmp", "webp"]

/-- The video-extension table of `prepare_media_previews` (line 267). -/
def videoExts : List String := ["mp4", "mov", "avi", "mkv", "webm"]

/-- The `is_image` test of `prepare_media_previews` (line 266): mime
starts with "image/", or the lower-cased `Path::extension` of the name
is in the image table. -/
def previewIsImage (mime : Option String) (name : String) : Bool :=
  "image/".toList.isPrefixOf (asciiLowerStr (mime.getD "")).toList ||
    imageExts.contains (asciiLowerStr ((pathExtension name).getD ""))

/-- The `is_video` test of `prepare_media_previews` (line 267). -/
def previewIsVideo (mime : Option String) (name : String) : Bool :=
  "video/".toList.isPrefixOf (asciiLowerStr (mime.getD "")).toList ||
    videoExts.contains (asciiLowerStr ((pathExtension name).getD ""))

/-- The `is_pdf` test of `prepare_media_previews` (line 268). -/
def previewIsPdf (mime : Option String) (name : String) : Bool :=
  asciiLowerStr (mime.getD "") == "application/pdf" ||
    asciiLowerStr ((pathExtension name).getD "") == "pdf"

/-- analyse.rs `prepare_media_previews` (lines 263-281). -/
def prepare_media_previews (env : PreviewEnv) (file : LoadedFile) (mime : Option String) :
    Except String MediaPreviews :=
  if previewIsImage mime file.name then
    (read_and_downscale_image_b64 env).map (fun b => { image_b64 := some b })
  else if previewIsVideo mime file.name then
    (extract_video_keyframes_b64 env 6).map (fun fs => { video_frames_b64 := some fs })
  else if previewIsPdf mime file.name then
    (rasterize_pdf_page0_b64 env).map (fun p => { pdf_page0_b64 := p })
  else Except.ok {}

/-- analyse.rs `maybe_ai_enrichment` (lines 395-430): without the
`TAGGER_ENDPOINT` variable the stage returns `None` before any request
is built; with it, the POST and the JSON decode of the response are the
remaining fallible steps, collapsed into the `aiResponse` oracle.  The
request body assembled by the source has no influence on the modelled
outcome. -/
def maybe_ai_enrichment (env : FileEnv) : Option AiTagOut :=
  match env.aiEndpoint with
  | none => none
  | some _ => env.aiResponse

/-- The `if !raw_keywords.iter().any(...)` append loop of analyse_single
(lines 82-86): fold the AI keywords into the list, appending each one
that is not yet present under ASCII-case-insensitive comparison. -/
def mergeAiKeywords (existing extra : List String) : List String :=
  extra.foldl
    (fun acc k => if acc.any (fun x => eqIgnoreAsciiCase x k) then acc else acc ++ [k])
    existing

/-- The `if let Some(ai)` merge block of analyse_single (lines 78-93):
tags and topics overwrite when present, AI keywords append-if-new, and a
suggestion replaces the default only when its rename is nonempty. -/
def applyAi (ai : AiTagOut) (out : MediaAnalysis) (raw : List String) :
    MediaAnalysis × List String :=
  let out := match ai.tags with
    | some t => {out with tagging.tags := t}
    | none => out
  let out := match ai.topics with
    | some t => {out with tagging.topics := t}
    | none => out
  let raw := match ai.raw_keywords with
    | some extra => mergeAiKeywords raw extra
    | none => raw
  let out := match ai.suggested with
    | some s => if s.rename ≠ "" then {out with suggested := s} else out
    | none => out
  (out, raw)

/-- analyse.rs `analyse_single` (lines 19-97).  The stages appear in
source order: filesystem metadata, type classification, the per-kind
numeric enrichment (whose logged errors are discarded), the keyword seed
from the filename, the preview build (whose error propagates through
`?`), the optional AI merge, and the final overwrite of
`tagging.raw_keywords` with the local list. -/
def analyse_single (env : FileEnv) (file : LoadedFile) : Except String MediaAnalysis :=
  let mime := env.mime
  let size_bytes := env.fsMeta.map (fun m => m.size)
  let created_at := env.fsMeta.bind (fun m => m.created)
  let modified_at := env.fsMeta.bind (fun m => m.modified)
  let out : MediaAnalysis := {}
  let out := {out with meta.mime := mime, meta.size_bytes := size_bytes,
                       meta.created_at := created_at, meta.modified_at := modified_at}
  let ftype := get_type file.name
  let out := {out with meta.file_type := fileTypeTag ftype}
  let out := match ftype with
    | FileType.Image =>
      enrich_image_exif_keywords env.exifEntries (enrich_image_dims env.imageDimensions out)
    | FileType.Video => (enrich_video_ffprobe env.ffprobe out).1
    | FileType.Pdf => (enrich_pdf_lopdf env.pdfDoc out).1
    | FileType.Other => out
  let raw_keywords := gather_keywords file.name
  match prepare_media_previews env.preview file mime with
  | Except.error e => Except.error e
  | Except.ok _previews =>
    let st := match maybe_ai_enrichment env with
      | some ai => applyAi ai out raw_keywords
      | none => (out, raw_keywords)
    Except.ok {st.1 with tagging.raw_keywords := st.2}

/-- lib.rs `analyse_file` (lines 8-17): map `analyse_single` over the
batch in order, collecting the results.  The source unwraps each
per-file result, so a single failure panics the whole call; the panic is
modelled by `none`, and the environment is supplied per file since each
file has its own filesystem and subprocess interactions. -/
def analyse_file (envOf : LoadedFile → FileEnv) : List LoadedFile →
    Option (List MediaAnalysis)
  | [] => some []
  | f :: fs =>
    match (analyse_single (envOf f) f).toOption with
    | none => none
    | some a =>
      match analyse_file envOf fs with
      | none => none
      | some rest => some (a :: rest)

/-!  Derived views and concrete scenarios (definitions used by the
theorems below). -/

/-- Absence of duplicates under ASCII-case-insensitive comparison: the
invariant claimed for `raw_keywords`. -/
def PairwiseCI (l : List String) : Prop :=
  l.Pairwise (fun a b => asciiLowerStr a ≠ asciiLowerStr b)

instance : DecidableRel (fun a b : String => asciiLowerStr a ≠ asciiLowerStr b) :=
  fun _ _ => instDecidableNot

instance (l : List String) : Decidable (PairwiseCI l) :=
  List.instDecidablePairwise l

/-- The record assembled by `analyse_single` before the preview stage:
filesystem metadata, the type tag, and the per-kind numeric enrichment
(this is the state of `out` at line 73 of analyse.rs, including the EXIF
keywords pushed into `tagging.raw_keywords`). -/
def localEnriched (env : FileEnv) (file : LoadedFile) : MediaAnalysis :=
  let out : MediaAnalysis := {}
  let out := {out with meta.mime := env.mime,
                       meta.size_bytes := env.fsMeta.map (fun (m : FsMeta) => m.size),
                       meta.created_at := env.fsMeta.bind (fun (m : FsMeta) => m.created),
                       meta.modified_at := env.fsMeta.bind (fun (m : FsMeta) => m.modified)}
  let ftype := get_type file.name
  let out := {out with meta.file_type := fileTypeTag ftype}
  match ftype with
  | FileType.Image =>
    enrich_image_exif_keywords env.exifEntries (enrich_image_dims env.imageDimensions out)
  | FileType.Video => (enrich_video_ffprobe env.ffprobe out).1
  | FileType.Pdf => (enrich_pdf_lopdf env.pdfDoc out).1
  | FileType.Other => out

/-- The record `analyse_single` returns when the preview stage succeeds:
the locally enriched record, merged with the optional AI response, with
`tagging.raw_keywords` overwritten by the final local list (line 95 of
analyse.rs). -/
def mergedRecord (env : FileEnv) (file : LoadedFile) : MediaAnalysis :=
  let st := match maybe_ai_enrichment env with
    | some ai => applyAi ai (localEnriched env file) (gather_keywords file.name)
    | none => (localEnriched env file, gather_keywords file.name)
  {st.1 with tagging.raw_keywords := st.2}

/-- The extension table exactly as the specification words it (section
4.1 / section 8): `pdf`; the image set; the video set; everything else
`Other`.  Used to compare the source classifier against the spec. -/
def classifyExtSpec (e : String) : FileType :=
  if e = "pdf" then FileType.Pdf
  else if e ∈ imageExts then FileType.Image
  else if e ∈ videoExts then FileType.Video
  else FileType.Other

/-- A preview environment in which every external interaction succeeds
and both optional tools are installed. -/
def okPreview : PreviewEnv :=
  { imageOpen := Except.ok (4000, 3000), imageEncodeB64 := Except.ok "imgb64",
    ffmpegFound := true, ffmpegRun := Except.ok true, frameReads := Except.ok ["frame1"],
    pdftoppmFound := true, pdftoppmOk := Except.ok true,
    rasterOpen := Except.ok (1000, 1400), rasterEncodeB64 := Except.ok "pdfb64" }

/-- C1 scenario: a JPEG whose EXIF data carries `Model = Canon EOS 80D`,
with readable dimensions, no AI endpoint configured, and a fully
working preview stage. -/
def c1Env : FileEnv :=
  { mime := some "image/jpeg", fsMeta := some { size := 12345 },
    imageDimensions := some (4000, 3000),
    exifEntries := some [⟨ExifTag.Model, "Canon EOS 80D"⟩],
    preview := okPreview }

/-- The C1 input file. -/
def c1File : LoadedFile := ⟨"photo.jpg", "/pics/photo.jpg"⟩

/-- The record the code actually returns in the C1 scenario. -/
def c1Out : MediaAnalysis :=
  { meta := { file_type := "image", mime := some "image/jpeg", size_bytes := some 12345 },
    image := { width := some 4000, height := some 3000 },
    tagging := { raw_keywords := ["jpg"] } }

/-- C2 counterexample scenario: an image file whose decode fails inside
the preview builder. -/
def c2Env : FileEnv :=
  { mime := some "image/png",
    preview := { imageOpen := Except.error "decode failed" } }

/-- The C2 counterexample input file. -/
def c2File : LoadedFile := ⟨"broken.png", "/pics/broken.png"⟩

/-- C2 witness scenario: a video file analysed on a machine without
ffmpeg (`PreviewEnv` defaults model both tools missing). -/
def c2VidEnv : FileEnv := { mime := some "video/mp4" }

/-- The C2 witness input file. -/
def c2VidFile : LoadedFile := ⟨"holiday.mp4", "/vids/holiday.mp4"⟩

/-- C4 witness scenario: every file analysed under an empty environment
(no mime, no metadata, no tools, no AI). -/
def c4EnvOf : LoadedFile → FileEnv := fun _ => {}

/-- The C4 witness batch. -/
def c4Files : List LoadedFile :=
  [⟨"alpha.txt", "/a/alpha.txt"⟩, ⟨"beta.txt", "/b/beta.txt"⟩]

/-- The batch result on `c4Files`. -/
def c4Res : List MediaAnalysis :=
  [{ meta := { file_type := "other" }, tagging := { raw_keywords := ["alpha", "txt"] } },
   { meta := { file_type := "other" }, tagging := { raw_keywords := ["beta", "txt"] } }]

/-- C5 witness scenario: no AI endpoint, plain text file. -/
def c5Env : FileEnv := {}

/-- The C5 witness input file. -/
def c5File : LoadedFile := ⟨"summer trip.txt", "/t/summer trip.txt"⟩

/-- The record returned in the C5 witness scenario. -/
def c5Out : MediaAnalysis :=
  { meta := { file_type := "other" },
    tagging := { raw_keywords := ["summer", "trip", "txt"] } }

/-- C6 witness scenario: a PDF whose structural parse fails and whose
rasterizer is not installed. -/
def c6Env : FileEnv := {}

/-- The C6 witness input file. -/
def c6File : LoadedFile := ⟨"report.pdf", "/docs/report.pdf"⟩

/-- The record returned in the C6 witness scenario. -/
def c6Out : MediaAnalysis :=
  { meta := { file_type := "pdf" },
    tagging := { raw_keywords := ["pdf", "report"] } }

/-- C7 witness document: three pages, `MediaBox [0, 0, 612, 792]`. -/
def c7Doc : PdfDoc :=
  { pageCount := 3,
    firstPageMediaBox := some (PdfObj.array
      [PdfObj.integer 0, PdfObj.integer 0, PdfObj.integer 612, PdfObj.integer 792]) }

/-- C7 witness document with a non-numeric `MediaBox` entry. -/
def c7BadDoc : PdfDoc :=
  { pageCount := 1,
    firstPageMediaBox := some (PdfObj.array
      [PdfObj.integer 0, PdfObj.nonNumeric, PdfObj.integer 612, PdfObj.integer 792]) }

/-- C9 witness scenario: AI endpoint configured; the response repeats an
existing keyword in different case and adds a genuinely new one. -/
def c9Env : FileEnv :=
  { aiEndpoint := some "http://ai.local/tag",
    aiResponse := some { raw_keywords := some ["Summer", "NEW"] } }

/-- The C9 witness input file. -/
def c9File : LoadedFile := ⟨"summer trip.txt", "/t/summer trip.txt"⟩

/-- The record returned in the C9 witness scenario. -/
def c9Out : MediaAnalysis :=
  { meta := { file_type := "other" },
    tagging := { raw_keywords := ["summer", "trip", "txt", "NEW"] } }

/-!  Theorems.  First the ordering and keyword-pipeline lemmas, then the
stage-preservation lemmas, then one theorem per claim (with witnesses). -/

theorem lexLe_total : ∀ l₁ l₂ : List Char, lexLe l₁ l₂ = true ∨ lexLe l₂ l₁ = true
  | [], l₂ => by left; cases l₂ <;> rfl
  | _ :: _, [] => by right; rfl
  | a :: as, b :: bs => by
    by_cases hab : a = b
    · subst hab
      simpa only [lexLe, if_pos rfl] using lexLe_total as bs
    · rcases Ne.lt_or_lt hab with h | h
      · left; simp [lexLe, hab, h]
      · right; simp [lexLe, Ne.symm hab, h]

theorem lexLe_trans : ∀ {l₁ l₂ l₃ : List Char},
    lexLe l₁ l₂ = true → lexLe l₂ l₃ = true → lexLe l₁ l₃ = true
  | [], _, l₃, _, _ => by cases l₃ <;> rfl
  | _ :: _, [], _, h₁, _ => by simp [lexLe] at h₁
  | _ :: _, _ :: _, [], _, h₂ => by simp [lexLe] at h₂
  | a :: as, b :: bs, c :: cs, h₁, h₂ => by
    by_cases hab : a = b <;> by_cases hbc : b = c
    · subst hab; subst hbc
      simp only [lexLe, if_pos rfl] at h₁ h₂ ⊢
      exact lexLe_trans h₁ h₂
    · subst hab
      simp only [lexLe, if_neg hbc, decide_eq_true_eq] at h₂
      simp only [lexLe, if_neg hbc, decide_eq_true_eq]
      exact h₂
    · subst hbc
      simp only [lexLe, if_neg hab, decide_eq_true_eq] at h₁
      simp only [lexLe, if_neg hab, decide_eq_true_eq]
      exact h₁
    · simp only [lexLe, if_neg hab, decide_eq_true_eq] at h₁
      simp only [lexLe, if_neg hbc, decide_eq_true_eq] at h₂
      have hac := lt_trans h₁ h₂
      simp only [lexLe, if_neg (ne_of_lt hac), decide_eq_true_eq]
      exact hac

theorem lexLe_antisymm : ∀ {l₁ l₂ : List Char},
    lexLe l₁ l₂ = true → lexLe l₂ l₁ = true → l₁ = l₂
  | [], [], _, _ => rfl
  | [], _ :: _, _, h₂ => by simp [lexLe] at h₂
  | _ :: _, [], h₁, _ => by simp [lexLe] at h₁
  | a :: as, b :: bs, h₁, h₂ => by
    by_cases hab : a = b
    · subst hab
      simp only [lexLe, if_pos rfl] at h₁ h₂
      rw [lexLe_antisymm h₁ h₂]
    · simp only [lexLe, if_neg hab, decide_eq_true_eq] at h₁
      simp only [lexLe, if_neg (Ne.symm hab), decide_eq_true_eq] at h₂
      exact absurd h₂ (lt_asymm h₁)

theorem strLeP_antisymm {a b : String} (h₁ : strLeP a b) (h₂ : strLeP b a) : a = b := by
  have := lexLe_antisymm h₁ h₂
  exact String.toList_inj.mp this

theorem asciiLowerChar_idem (c : Char) :
    asciiLowerChar (asciiLowerChar c) = asciiLowerChar c := by
  unfold asciiLowerChar
  by_cases h : 65 ≤ c.toNat ∧ c.toNat ≤ 90
  · rw [if_pos h]
    obtain ⟨h1, h2⟩ := h
    obtain ⟨n, hn⟩ : ∃ n, c.toNat = n := ⟨_, rfl⟩
    rw [hn] at h1 h2 ⊢
    interval_cases n <;> decide
  · rw [if_neg h, if_neg h]

theorem map_asciiLowerChar_idem (t : List Char) :
    (t.map asciiLowerChar).map asciiLowerChar = t.map asciiLowerChar := by
  rw [List.map_map]
  exact List.map_congr_left (fun a _ => asciiLowerChar_idem a)

theorem asciiLowerStr_mapped (t : List Char) :
    asciiLowerStr ((t.map asciiLowerChar).asString) = (t.map asciiLowerChar).asString := by
  unfold asciiLowerStr
  rw [List.toList_asString, map_asciiLowerChar_idem]

theorem mem_insertStr {x a : String} : ∀ {l : List String}, x ∈ insertStr a l ↔ x = a ∨ x ∈ l
  | [] => by simp [insertStr]
  | b :: l => by
    unfold insertStr
    split
    · simp
    · rw [List.mem_cons, List.mem_cons, mem_insertStr]
      tauto

theorem mem_sortStrings {x : String} : ∀ {l : List String}, x ∈ sortStrings l ↔ x ∈ l
  | [] => Iff.rfl
  | b :: l => by
    unfold sortStrings
    rw [mem_insertStr, List.mem_cons, mem_sortStrings]

theorem insertStr_pairwise {a : String} :
    ∀ {l : List String}, l.Pairwise strLeP → (insertStr a l).Pairwise strLeP
  | [], _ => by simp [insertStr]
  | b :: l, hp => by
    obtain ⟨hb, hl⟩ := List.pairwise_cons.mp hp
    unfold insertStr
    split
    · rename_i hab
      refine List.pairwise_cons.mpr ⟨?_, hp⟩
      intro x hx
      rcases List.mem_cons.mp hx with rfl | hxl
      · exact hab
      · exact lexLe_trans hab (hb x hxl)
    · rename_i hab
      have hba : strLeP b a := by
        rcases lexLe_total a.toList b.toList with h | h
        · exact absurd h hab
        · exact h
      refine List.pairwise_cons.mpr ⟨?_, insertStr_pairwise hl⟩
      intro x hx
      rcases mem_insertStr.mp hx with rfl | hxl
      · exact hba
      · exact hb x hxl

theorem sortStrings_pairwise : ∀ (l : List String), (sortStrings l).Pairwise strLeP
  | [] => List.Pairwise.nil
  | _ :: l => insertStr_pairwise (sortStrings_pairwise l)

theorem mem_dedupAdj {x : String} : ∀ {l : List String}, x ∈ dedupAdj l ↔ x ∈ l
  | [] => Iff.rfl
  | [a] => Iff.rfl
  | a :: b :: rest => by
    by_cases hab : a = b
    · subst hab
      rw [dedupAdj, if_pos rfl, mem_dedupAdj]
      simp
    · rw [dedupAdj, if_neg hab, List.mem_cons, mem_dedupAdj]
      simp

theorem dedupAdj_pairwise :
    ∀ {l : List String}, l.Pairwise strLeP →
      (dedupAdj l).Pairwise (fun a b => strLeP a b ∧ a ≠ b)
  | [], _ => List.Pairwise.nil
  | [a], _ => by simp [dedupAdj]
  | a :: b :: rest, hp => by
    obtain ⟨ha, hbp⟩ := List.pairwise_cons.mp hp
    by_cases hab : a = b
    · subst hab
      rw [dedupAdj, if_pos rfl]
      exact dedupAdj_pairwise hbp
    · rw [dedupAdj, if_neg hab]
      refine List.pairwise_cons.mpr ⟨?_, dedupAdj_pairwise hbp⟩
      intro x hx
      have hxmem : x ∈ b :: rest := mem_dedupAdj.mp hx
      refine ⟨ha x hxmem, ?_⟩
      rcases List.mem_cons.mp hxmem with rfl | hxr
      · exact hab
      · intro heq
        have hbx : strLeP b x := (List.pairwise_cons.mp hbp).1 x hxr
        rw [← heq] at hbx
        exact hab (strLeP_antisymm (ha b (List.mem_cons_self b rest)) hbx)

theorem gather_keywords_eq (name : String) :
    gather_keywords name =
      dedupAdj (sortStrings
        (((splitRuns name.toList).map (fun t => (t.map asciiLowerChar).asString)).filter
          (fun w => decide (3 ≤ w.length ∧ w ∉ STOP)))) := rfl

theorem mem_gather_keywords {name w} :
    w ∈ gather_keywords name ↔
      (w ∈ (splitRuns name.toList).map (fun t => (t.map asciiLowerChar).asString) ∧
        3 ≤ w.length ∧ w ∉ STOP) := by
  rw [gather_keywords_eq, mem_dedupAdj, mem_sortStrings, List.mem_filter]
  rw [decide_eq_true_eq]

theorem gather_keywords_pairwise (name : String) :
    (gather_keywords name).Pairwise (fun a b => strLeP a b ∧ a ≠ b) := by
  rw [gather_keywords_eq]
  exact dedupAdj_pairwise (sortStrings_pairwise _)

theorem gather_keywords_sorted (name : String) :
    (gather_keywords name).Pairwise strLeP :=
  (gather_keywords_pairwise name).imp (fun h => h.1)

theorem gather_keywords_nodup (name : String) :
    (gather_keywords name).Nodup :=
  (gather_keywords_pairwise name).imp (fun h => h.2)

theorem gather_keywords_lowerFixed {name w} (h : w ∈ gather_keywords name) :
    asciiLowerStr w = w := by
  obtain ⟨hmem, -, -⟩ := mem_gather_keywords.mp h
  obtain ⟨t, -, rfl⟩ := List.mem_map.mp hmem
  exact asciiLowerStr_mapped t

theorem gather_keywords_pairwiseCI (name : String) :
    PairwiseCI (gather_keywords name) := by
  refine List.Pairwise.imp_of_mem ?_ (gather_keywords_pairwise name)
  intro a b ha hb hab
  intro hlow
  apply hab.2
  rw [← gather_keywords_lowerFixed ha, ← gather_keywords_lowerFixed hb, hlow]

theorem mergeAiKeywords_pairwiseCI :
    ∀ {extra existing : List String}, PairwiseCI existing →
      PairwiseCI (mergeAiKeywords existing extra)
  | [], _, h => h
  | k :: ks, existing, h => by
    unfold mergeAiKeywords
    rw [List.foldl_cons]
    split
    · exact @mergeAiKeywords_pairwiseCI ks existing h
    · rename_i hany
      refine @mergeAiKeywords_pairwiseCI ks _ ?_
      unfold PairwiseCI
      rw [List.pairwise_append]
      refine ⟨h, List.pairwise_singleton _ _, ?_⟩
      intro a ha b hb
      rw [List.mem_singleton] at hb
      rw [hb]
      have hfalse : existing.any (fun x => eqIgnoreAsciiCase x k) = false := by
        simpa using hany
      have hone := List.any_eq_false.mp hfalse a ha
      unfold eqIgnoreAsciiCase at hone
      simpa using hone

theorem exifStep_video (out : MediaAnalysis) (e : ExifEntry) :
    (exifStep out e).video = out.video := by
  rcases e with ⟨tag, v⟩
  cases tag <;> simp only [exifStep] <;> first | rfl | (split <;> rfl)

theorem exifStep_pdf (out : MediaAnalysis) (e : ExifEntry) :
    (exifStep out e).pdf = out.pdf := by
  rcases e with ⟨tag, v⟩
  cases tag <;> simp only [exifStep] <;> first | rfl | (split <;> rfl)

theorem exifStep_meta (out : MediaAnalysis) (e : ExifEntry) :
    (exifStep out e).meta = out.meta := by
  rcases e with ⟨tag, v⟩
  cases tag <;> simp only [exifStep] <;> first | rfl | (split <;> rfl)

theorem exifStep_tags (out : MediaAnalysis) (e : ExifEntry) :
    (exifStep out e).tagging.tags = out.tagging.tags := by
  rcases e with ⟨tag, v⟩
  cases tag <;> simp only [exifStep] <;> first | rfl | (split <;> rfl)

theorem exifStep_topics (out : MediaAnalysis) (e : ExifEntry) :
    (exifStep out e).tagging.topics = out.tagging.topics := by
  rcases e with ⟨tag, v⟩
  cases tag <;> simp only [exifStep] <;> first | rfl | (split <;> rfl)

theorem exifStep_suggested (out : MediaAnalysis) (e : ExifEntry) :
    (exifStep out e).suggested = out.suggested := by
  rcases e with ⟨tag, v⟩
  cases tag <;> simp only [exifStep] <;> first | rfl | (split <;> rfl)

theorem exifFold_video : ∀ (es : List ExifEntry) (out : MediaAnalysis),
    (es.foldl exifStep out).video = out.video
  | [], _ => rfl
  | e :: es, out => by rw [List.foldl_cons, exifFold_video es, exifStep_video]

theorem exifFold_pdf : ∀ (es : List ExifEntry) (out : MediaAnalysis),
    (es.foldl exifStep out).pdf = out.pdf
  | [], _ => rfl
  | e :: es, out => by rw [List.foldl_cons, exifFold_pdf es, exifStep_pdf]

theorem exifFold_meta : ∀ (es : List ExifEntry) (out : MediaAnalysis),
    (es.foldl exifStep out).meta = out.meta
  | [], _ => rfl
  | e :: es, out => by rw [List.foldl_cons, exifFold_meta es, exifStep_meta]

theorem exifFold_tags : ∀ (es : List ExifEntry) (out : MediaAnalysis),
    (es.foldl exifStep out).tagging.tags = out.tagging.tags
  | [], _ => rfl
  | e :: es, out => by rw [List.foldl_cons, exifFold_tags es, exifStep_tags]

theorem exifFold_topics : ∀ (es : List ExifEntry) (out : MediaAnalysis),
    (es.foldl exifStep out).tagging.topics = out.tagging.topics
  | [], _ => rfl
  | e :: es, out => by rw [List.foldl_cons, exifFold_topics es, exifStep_topics]

theorem exifFold_suggested : ∀ (es : List ExifEntry) (out : MediaAnalysis),
    (es.foldl exifStep out).suggested = out.suggested
  | [], _ => rfl
  | e :: es, out => by rw [List.foldl_cons, exifFold_suggested es, exifStep_suggested]

theorem enrich_exif_video (exif : Option (List ExifEntry)) (out : MediaAnalysis) :
    (enrich_image_exif_keywords exif out).video = out.video := by
  cases exif <;> simp [enrich_image_exif_keywords, exifFold_video]

theorem enrich_exif_pdf (exif : Option (List ExifEntry)) (out : MediaAnalysis) :
    (enrich_image_exif_keywords exif out).pdf = out.pdf := by
  cases exif <;> simp [enrich_image_exif_keywords, exifFold_pdf]

theorem enrich_exif_meta (exif : Option (List ExifEntry)) (out : MediaAnalysis) :
    (enrich_image_exif_keywords exif out).meta = out.meta := by
  cases exif <;> simp [enrich_image_exif_keywords, exifFold_meta]

theorem enrich_exif_tags (exif : Option (List ExifEntry)) (out : MediaAnalysis) :
    (enrich_image_exif_keywords exif out).tagging.tags = out.tagging.tags := by
  cases exif <;> simp [enrich_image_exif_keywords, exifFold_tags]

theorem enrich_exif_topics (exif : Option (List ExifEntry)) (out : MediaAnalysis) :
    (enrich_image_exif_keywords exif out).tagging.topics = out.tagging.topics := by
  cases exif <;> simp [enrich_image_exif_keywords, exifFold_topics]

theorem enrich_exif_suggested (exif : Option (List ExifEntry)) (out : MediaAnalysis) :
    (enrich_image_exif_keywords exif out).suggested = out.suggested := by
  cases exif <;> simp [enrich_image_exif_keywords, exifFold_suggested]

theorem enrich_dims_video (dims : Option (Nat × Nat)) (out : MediaAnalysis) :
    (enrich_image_dims dims out).video = out.video := by
  rcases dims with _ | ⟨w, h⟩ <;> rfl

theorem enrich_dims_pdf (dims : Option (Nat × Nat)) (out : MediaAnalysis) :
    (enrich_image_dims dims out).pdf = out.pdf := by
  rcases dims with _ | ⟨w, h⟩ <;> rfl

theorem enrich_dims_meta (dims : Option (Nat × Nat)) (out : MediaAnalysis) :
    (enrich_image_dims dims out).meta = out.meta := by
  rcases dims with _ | ⟨w, h⟩ <;> rfl

theorem enrich_dims_tagging (dims : Option (Nat × Nat)) (out : MediaAnalysis) :
    (enrich_image_dims dims out).tagging = out.tagging := by
  rcases dims with _ | ⟨w, h⟩ <;> rfl

theorem enrich_dims_suggested (dims : Option (Nat × Nat)) (out : MediaAnalysis) :
    (enrich_image_dims dims out).suggested = out.suggested := by
  rcases dims with _ | ⟨w, h⟩ <;> rfl

theorem enrich_video_meta (env : FfprobeEnv) (out : MediaAnalysis) :
    (enrich_video_ffprobe env out).1.meta = out.meta := by
  unfold enrich_video_ffprobe
  repeat first | rfl | split | dsimp only

theorem enrich_video_image (env : FfprobeEnv) (out : MediaAnalysis) :
    (enrich_video_ffprobe env out).1.image = out.image := by
  unfold enrich_video_ffprobe
  repeat first | rfl | split | dsimp only

theorem enrich_video_pdf (env : FfprobeEnv) (out : MediaAnalysis) :
    (enrich_video_ffprobe env out).1.pdf = out.pdf := by
  unfold enrich_video_ffprobe
  repeat first | rfl | split | dsimp only

theorem enrich_video_tagging (env : FfprobeEnv) (out : MediaAnalysis) :
    (enrich_video_ffprobe env out).1.tagging = out.tagging := by
  unfold enrich_video_ffprobe
  repeat first | rfl | split | dsimp only

theorem enrich_video_suggested (env : FfprobeEnv) (out : MediaAnalysis) :
    (enrich_video_ffprobe env out).1.suggested = out.suggested := by
  unfold enrich_video_ffprobe
  repeat first | rfl | split | dsimp only

theorem enrich_pdf_meta (doc : Option PdfDoc) (out : MediaAnalysis) :
    (enrich_pdf_lopdf doc out).1.meta = out.meta := by
  unfold enrich_pdf_lopdf
  repeat first | rfl | split | dsimp only

theorem enrich_pdf_image (doc : Option PdfDoc) (out : MediaAnalysis) :
    (enrich_pdf_lopdf doc out).1.image = out.image := by
  unfold enrich_pdf_lopdf
  repeat first | rfl | split | dsimp only

theorem enrich_pdf_video (doc : Option PdfDoc) (out : MediaAnalysis) :
    (enrich_pdf_lopdf doc out).1.video = out.video := by
  unfold enrich_pdf_lopdf
  repeat first | rfl | split | dsimp only

theorem enrich_pdf_tagging (doc : Option PdfDoc) (out : MediaAnalysis) :
    (enrich_pdf_lopdf doc out).1.tagging = out.tagging := by
  unfold enrich_pdf_lopdf
  repeat first | rfl | split | dsimp only

theorem enrich_pdf_suggested (doc : Option PdfDoc) (out : MediaAnalysis) :
    (enrich_pdf_lopdf doc out).1.suggested = out.suggested := by
  unfold enrich_pdf_lopdf
  repeat first | rfl | split | dsimp only

theorem applyAi_meta (ai : AiTagOut) (out : MediaAnalysis) (raw : List String) :
    (applyAi ai out raw).1.meta = out.meta := by
  unfold applyAi
  repeat first | rfl | split | dsimp only

theorem applyAi_image (ai : AiTagOut) (out : MediaAnalysis) (raw : List String) :
    (applyAi ai out raw).1.image = out.image := by
  unfold applyAi
  repeat first | rfl | split | dsimp only

theorem applyAi_video (ai : AiTagOut) (out : MediaAnalysis) (raw : List String) :
    (applyAi ai out raw).1.video = out.video := by
  unfold applyAi
  repeat first | rfl | split | dsimp only

theorem applyAi_pdf (ai : AiTagOut) (out : MediaAnalysis) (raw : List String) :
    (applyAi ai out raw).1.pdf = out.pdf := by
  unfold applyAi
  repeat first | rfl | split | dsimp only

theorem applyAi_snd (ai : AiTagOut) (out : MediaAnalysis) (raw : List String) :
    (applyAi ai out raw).2 =
      match ai.raw_keywords with
      | some extra => mergeAiKeywords raw extra
      | none => raw := by
  unfold applyAi
  repeat first | rfl | split | dsimp only

theorem localEnriched_file_type (env : FileEnv) (file : LoadedFile) :
    (localEnriched env file).meta.file_type = fileTypeTag (get_type file.name) := by
  unfold localEnriched
  cases hft : get_type file.name <;>
    simp [hft, enrich_exif_meta, enrich_dims_meta, enrich_video_meta, enrich_pdf_meta]

theorem localEnriched_tags (env : FileEnv) (file : LoadedFile) :
    (localEnriched env file).tagging.tags = [] := by
  unfold localEnriched
  cases hft : get_type file.name <;>
    simp [hft, enrich_exif_tags, enrich_dims_tagging, enrich_video_tagging, enrich_pdf_tagging]

theorem localEnriched_topics (env : FileEnv) (file : LoadedFile) :
    (localEnriched env file).tagging.topics = [] := by
  unfold localEnriched
  cases hft : get_type file.name <;>
    simp [hft, enrich_exif_topics, enrich_dims_tagging, enrich_video_tagging, enrich_pdf_tagging]

theorem localEnriched_suggested (env : FileEnv) (file : LoadedFile) :
    (localEnriched env file).suggested = {} := by
  unfold localEnriched
  cases hft : get_type file.name <;>
    simp [hft, enrich_exif_suggested, enrich_dims_suggested, enrich_video_suggested,
          enrich_pdf_suggested]

theorem localEnriched_image_default (env : FileEnv) (file : LoadedFile)
    (h : get_type file.name ≠ FileType.Image) :
    (localEnriched env file).image = {} := by
  unfold localEnriched
  cases hft : get_type file.name <;>
    simp [hft, enrich_video_image, enrich_pdf_image] <;> exact absurd hft h

theorem localEnriched_video_default (env : FileEnv) (file : LoadedFile)
    (h : get_type file.name ≠ FileType.Video) :
    (localEnriched env file).video = {} := by
  unfold localEnriched
  cases hft : get_type file.name <;>
    simp [hft, enrich_exif_video, enrich_dims_video, enrich_pdf_video] <;> exact absurd hft h

theorem localEnriched_pdf_default (env : FileEnv) (file : LoadedFile)
    (h : get_type file.name ≠ FileType.Pdf) :
    (localEnriched env file).pdf = {} := by
  unfold localEnriched
  cases hft : get_type file.name <;>
    simp [hft, enrich_exif_pdf, enrich_dims_pdf, enrich_video_pdf] <;> exact absurd hft h

theorem mergedRecord_meta (env : FileEnv) (file : LoadedFile) :
    (mergedRecord env file).meta = (localEnriched env file).meta := by
  unfold mergedRecord
  cases maybe_ai_enrichment env <;> simp [applyAi_meta]

theorem mergedRecord_image (env : FileEnv) (file : LoadedFile) :
    (mergedRecord env file).image = (localEnriched env file).image := by
  unfold mergedRecord
  cases maybe_ai_enrichment env <;> simp [applyAi_image]

theorem mergedRecord_video (env : FileEnv) (file : LoadedFile) :
    (mergedRecord env file).video = (localEnriched env file).video := by
  unfold mergedRecord
  cases maybe_ai_enrichment env <;> simp [applyAi_video]

theorem mergedRecord_pdf (env : FileEnv) (file : LoadedFile) :
    (mergedRecord env file).pdf = (localEnriched env file).pdf := by
  unfold mergedRecord
  cases maybe_ai_enrichment env <;> simp [applyAi_pdf]

theorem mergedRecord_raw (env : FileEnv) (file : LoadedFile) :
    (mergedRecord env file).tagging.raw_keywords =
      match maybe_ai_enrichment env with
      | some ai => (applyAi ai (localEnriched env file) (gather_keywords file.name)).2
      | none => gather_keywords file.name := by
  unfold mergedRecord
  cases maybe_ai_enrichment env <;> rfl

theorem mergedRecord_no_ai (env : FileEnv) (file : LoadedFile)
    (h : maybe_ai_enrichment env = none) :
    mergedRecord env file =
      {localEnriched env file with tagging.raw_keywords := gather_keywords file.name} := by
  unfold mergedRecord
  rw [h]

theorem analyse_single_eq (env : FileEnv) (file : LoadedFile) :
    analyse_single env file =
      match prepare_media_previews env.preview file env.mime with
      | Except.error e => Except.error e
      | Except.ok _ => Except.ok (mergedRecord env file) := rfl

theorem analyse_single_ok_out {env : FileEnv} {file : LoadedFile} {out : MediaAnalysis}
    (h : analyse_single env file = Except.ok out) :
    out = mergedRecord env file := by
  rw [analyse_single_eq] at h
  cases hp : prepare_media_previews env.preview file env.mime with
  | error e => rw [hp] at h; cases h
  | ok p => rw [hp] at h; cases h; rfl

theorem analyse_single_isOk (env : FileEnv) (file : LoadedFile) :
    (analyse_single env file).toOption.isSome =
      (prepare_media_previews env.preview file env.mime).toOption.isSome := by
  rw [analyse_single_eq]
  cases prepare_media_previews env.preview file env.mime <;> rfl

theorem takeWhile_all_append {p : Char → Bool} :
    ∀ (l r : List Char), (∀ c ∈ l, p c = true) →
      (l ++ r).takeWhile p = l ++ r.takeWhile p
  | [], _, _ => rfl
  | c :: l, r, h => by
    have hc : p c = true := h c (List.mem_cons_self c l)
    simp only [List.cons_append, List.takeWhile_cons, hc, if_true]
    rw [takeWhile_all_append l r (fun x hx => h x (List.mem_cons_of_mem c hx))]

theorem afterLastDot_append (base ext : List Char) (h : '.' ∉ ext) :
    ((base ++ '.' :: ext).reverse.takeWhile (fun c => c ≠ '.')).reverse = ext := by
  rw [List.reverse_append, List.reverse_cons, List.append_assoc]
  rw [takeWhile_all_append ext.reverse (['.'] ++ base.reverse) ?hall]
  · simp
  · intro c hc
    simp only [List.mem_reverse] at hc
    simpa using ne_of_mem_of_not_mem hc h

theorem afterLastDot_no_dot (l : List Char) (h : '.' ∉ l) :
    (l.reverse.takeWhile (fun c => c ≠ '.')).reverse = l := by
  have : ∀ c ∈ l.reverse, (fun c => decide (c ≠ '.')) c = true := by
    intro c hc
    simp only [List.mem_reverse] at hc
    simpa using ne_of_mem_of_not_mem hc h
  rw [← List.append_nil l.reverse, takeWhile_all_append l.reverse [] this]
  simp

theorem get_type_eq_classify (s : String) :
    get_type s = classifyExtSpec (asciiLowerStr
      ((s.toList.reverse.takeWhile (fun c => c ≠ '.')).reverse.asString)) := by
  unfold get_type classifyExtSpec
  dsimp only
  repeat' split <;> simp_all [imageExts, videoExts]

/-- C3, counterexample: the file name "pdf" has no extension in the
`Path::extension` sense, yet the classifier returns `Pdf`, not `Other`:
`rsplit` treats the whole dotless name as the fragment after the last
dot. -/
theorem c3_counterexample :
    pathExtension "pdf" = none ∧ get_type "pdf" = FileType.Pdf :=
  ⟨by decide, by decide⟩

/-- C3, amended: for every file name containing a dot, the classifier
maps the lower-cased fragment after the last dot through the fixed
extension table, case-insensitively, exactly as claimed; but a name
without any dot is mapped through the same table applied to the whole
lower-cased name, so a file named "pdf" (or "MP4", and so on) classifies
as that kind and only other extension-less names fall to Other. -/
theorem c3_classifier_table :
    (∀ base ext : String, '.' ∉ ext.toList →
        get_type (base ++ "." ++ ext) = classifyExtSpec (asciiLowerStr ext)) ∧
    (∀ name : String, '.' ∉ name.toList →
        get_type name = classifyExtSpec (asciiLowerStr name)) := by
  constructor
  · intro base ext h
    rw [get_type_eq_classify]
    have hsplit : (base ++ "." ++ ext).toList = base.toList ++ '.' :: ext.toList := by
      rw [show (base ++ "." ++ ext).toList = (base.toList ++ ['.']) ++ ext.toList from rfl,
          List.append_assoc]
      rfl
    rw [hsplit, afterLastDot_append _ _ h, String.asString_toList]
  · intro name h
    rw [get_type_eq_classify, afterLastDot_no_dot _ h, String.asString_toList]

/-- C3, witness for the amended theorem at a concrete input: the name
"photo.JPG" classifies as Image via the lower-cased extension. -/
theorem c3_witness :
    ('.' ∉ "JPG".toList) ∧
      get_type ("photo" ++ "." ++ "JPG") = classifyExtSpec (asciiLowerStr "JPG") :=
  ⟨by decide, c3_classifier_table.1 "photo" "JPG" (by decide)⟩

/-- C10: on "IMG_2024 Summer Vacation.jpg" the extractor produces
exactly ["2024", "jpg", "summer", "vacation"] — "img" excluded (stop
word), "summer" and "vacation" included; for every input the result is
lexicographically sorted and duplicate-free, membership is exactly
"lower-cased alphanumeric run of length at least 3 outside the stop
list", and the function is deterministic. -/
theorem c10_keyword_extraction :
    gather_keywords "IMG_2024 Summer Vacation.jpg" = ["2024", "jpg", "summer", "vacation"] ∧
    "img" ∉ gather_keywords "IMG_2024 Summer Vacation.jpg" ∧
    "summer" ∈ gather_keywords "IMG_2024 Summer Vacation.jpg" ∧
    "vacation" ∈ gather_keywords "IMG_2024 Summer Vacation.jpg" ∧
    (∀ name w, w ∈ gather_keywords name ↔
        (w ∈ (splitRuns name.toList).map (fun t => (t.map asciiLowerChar).asString) ∧
          3 ≤ w.length ∧ w ∉ STOP)) ∧
    (∀ name, (gather_keywords name).Pairwise strLeP) ∧
    (∀ name, (gather_keywords name).Nodup) ∧
    (∀ name, gather_keywords name = gather_keywords name) := by
  refine ⟨by decide, by decide, by decide, by decide, ?_,
          gather_keywords_sorted, gather_keywords_nodup, fun _ => rfl⟩
  intro name w
  exact mem_gather_keywords

/-- C10, witness: the concrete conjunct of the theorem evaluated. -/
theorem c10_witness :
    gather_keywords "IMG_2024 Summer Vacation.jpg" = ["2024", "jpg", "summer", "vacation"] :=
  c10_keyword_extraction.1

/-- C8: the rational parser yields exactly 30000/1001 (which lies in
[29.97, 29.98)) on "30000/1001", exactly 30 on "30/1", absent on "0/0",
and — generally — absent on every "A/B" input whose denominator parses
to zero. -/
theorem c8_parse_rational :
    parse_rational "30000/1001" = some (30000 / 1001 : ℚ) ∧
    ((2997 : ℚ) / 100 ≤ 30000 / 1001 ∧ (30000 / 1001 : ℚ) < 2998 / 100) ∧
    parse_rational "30/1" = some 30 ∧
    parse_rational "0/0" = none ∧
    (∀ (s : String) (a b : List Char) (rest : List (List Char)),
        splitOnChar '/' s.toList = a :: b :: rest →
        parseDecimal b = some 0 →
        parse_rational s = none) := by
  refine ⟨?_, by norm_num, ?_, ?_, ?_⟩
  · simp [parse_rational, splitOnChar, parseDecimal, parseDecimalCore, digitsToNat, digitVal,
          isDigitAscii, List.takeWhile, List.dropWhile, List.foldl]
  · simp [parse_rational, splitOnChar, parseDecimal, parseDecimalCore, digitsToNat, digitVal,
          isDigitAscii, List.takeWhile, List.dropWhile, List.foldl]
  · simp [parse_rational, splitOnChar, parseDecimal, parseDecimalCore, digitsToNat, digitVal,
          isDigitAscii, List.takeWhile, List.dropWhile, List.foldl]
  · intro s a b rest hsplit hb
    unfold parse_rational
    rw [hsplit]
    dsimp only
    rw [hb]
    cases ha : parseDecimal a <;> simp

/-- C8, witness for the universally quantified conjunct: "5/0" has a
zero denominator and parses to absent. -/
theorem c8_witness : parse_rational "5/0" = none :=
  c8_parse_rational.2.2.2.2 "5/0" ['5'] ['0'] [] (by decide)
    (by simp [parseDecimal, parseDecimalCore, digitsToNat, digitVal, isDigitAscii,
              List.takeWhile, List.dropWhile, List.foldl])

theorem bind_ok_eq {α β : Type} (a : α) (f : α → Except String β) :
    (Except.ok a >>= f) = f a := rfl

theorem bind_error_eq {α β : Type} (e : String) (f : α → Except String β) :
    ((Except.error e : Except String α) >>= f) = Except.error e := rfl

theorem mediaBoxDiff_ok {x y : PdfObj} {qx qy : ℚ}
    (hx : num_from_pdf x = Except.ok qx) (hy : num_from_pdf y = Except.ok qy) :
    mediaBoxDiff x y = Except.ok (qx - qy) := by
  unfold mediaBoxDiff
  simp only [hx, hy, bind_ok_eq]
  rfl

theorem mediaBoxDiff_ok_inv {x y : PdfObj} {q : ℚ}
    (h : mediaBoxDiff x y = Except.ok q) :
    (∃ qx, num_from_pdf x = Except.ok qx) ∧ ∃ qy, num_from_pdf y = Except.ok qy := by
  unfold mediaBoxDiff at h
  cases hx : num_from_pdf x with
  | error e => rw [hx, bind_error_eq] at h; cases h
  | ok qx =>
    rw [hx, bind_ok_eq] at h
    cases hy : num_from_pdf y with
    | error e => rw [hy, bind_error_eq] at h; cases h
    | ok qy => exact ⟨⟨qx, rfl⟩, ⟨qy, rfl⟩⟩

/-- C7: on a 4-element `MediaBox` whose entries are all numeric, the PDF
enricher sets first-page width to right minus left and height to top
minus bottom (so `[0, 0, 612, 792]` yields 612 by 792); when any entry
is non-numeric both geometry fields are left untouched (hence absent on
the default record), and the enricher returns rather than crashing. -/
theorem c7_pdf_geometry :
    (∀ (d : PdfDoc) (out : MediaAnalysis) (a0 a1 a2 a3 : PdfObj) (q0 q1 q2 q3 : ℚ),
        d.firstPageMediaBox = some (PdfObj.array [a0, a1, a2, a3]) →
        num_from_pdf a0 = Except.ok q0 → num_from_pdf a1 = Except.ok q1 →
        num_from_pdf a2 = Except.ok q2 → num_from_pdf a3 = Except.ok q3 →
        (enrich_pdf_lopdf (some d) out).1.pdf.page0_width_pt = some (q2 - q0) ∧
        (enrich_pdf_lopdf (some d) out).1.pdf.page0_height_pt = some (q3 - q1)) ∧
    (∀ (d : PdfDoc) (out : MediaAnalysis),
        d.firstPageMediaBox = some (PdfObj.array
          [PdfObj.integer 0, PdfObj.integer 0, PdfObj.integer 612, PdfObj.integer 792]) →
        (enrich_pdf_lopdf (some d) out).1.pdf.page0_width_pt = some 612 ∧
        (enrich_pdf_lopdf (some d) out).1.pdf.page0_height_pt = some 792) ∧
    (∀ (d : PdfDoc) (out : MediaAnalysis) (a0 a1 a2 a3 : PdfObj),
        d.firstPageMediaBox = some (PdfObj.array [a0, a1, a2, a3]) →
        (∃ x ∈ [a0, a1, a2, a3], num_from_pdf x = Except.error "not a number") →
        (enrich_pdf_lopdf (some d) out).1.pdf.page0_width_pt = out.pdf.page0_width_pt ∧
        (enrich_pdf_lopdf (some d) out).1.pdf.page0_height_pt = out.pdf.page0_height_pt) := by
  have main : ∀ (d : PdfDoc) (out : MediaAnalysis) (a0 a1 a2 a3 : PdfObj) (q0 q1 q2 q3 : ℚ),
      d.firstPageMediaBox = some (PdfObj.array [a0, a1, a2, a3]) →
      num_from_pdf a0 = Except.ok q0 → num_from_pdf a1 = Except.ok q1 →
      num_from_pdf a2 = Except.ok q2 → num_from_pdf a3 = Except.ok q3 →
      (enrich_pdf_lopdf (some d) out).1.pdf.page0_width_pt = some (q2 - q0) ∧
      (enrich_pdf_lopdf (some d) out).1.pdf.page0_height_pt = some (q3 - q1) := by
    intro d out a0 a1 a2 a3 q0 q1 q2 q3 hbox h0 h1 h2 h3
    unfold enrich_pdf_lopdf
    dsimp only
    rw [hbox]
    dsimp only
    rw [mediaBoxDiff_ok h2 h0, mediaBoxDiff_ok h3 h1]
    exact ⟨rfl, rfl⟩
  refine ⟨main, ?_, ?_⟩
  · intro d out hbox
    have h := main d out _ _ _ _ ((0 : ℤ) : ℚ) ((0 : ℤ) : ℚ) ((612 : ℤ) : ℚ) ((792 : ℤ) : ℚ)
      hbox rfl rfl rfl rfl
    refine ⟨h.1.trans ?_, h.2.trans ?_⟩ <;> norm_num
  · intro d out a0 a1 a2 a3 hbox hex
    unfold enrich_pdf_lopdf
    dsimp only
    rw [hbox]
    dsimp only
    cases hw : mediaBoxDiff a2 a0 with
    | error e => exact ⟨rfl, rfl⟩
    | ok w =>
      cases hh : mediaBoxDiff a3 a1 with
      | error e => exact ⟨rfl, rfl⟩
      | ok h =>
        exfalso
        obtain ⟨x, hmem, hx⟩ := hex
        obtain ⟨⟨w2, hw2⟩, ⟨w0, hw0⟩⟩ := mediaBoxDiff_ok_inv hw
        obtain ⟨⟨w3, hw3⟩, ⟨w1, hw1⟩⟩ := mediaBoxDiff_ok_inv hh
        rcases List.mem_cons.mp hmem with rfl | hmem
        · rw [hx] at hw0; cases hw0
        rcases List.mem_cons.mp hmem with rfl | hmem
        · rw [hx] at hw1; cases hw1
        rcases List.mem_cons.mp hmem with rfl | hmem
        · rw [hx] at hw2; cases hw2
        rcases List.mem_cons.mp hmem with rfl | hmem
        · rw [hx] at hw3; cases hw3
        cases hmem

/-- C7, witness: the MediaBox 0 0 612 792 gives width 612, and the
document with a non-numeric second entry leaves height absent on the
default record. -/
theorem c7_witness :
    (enrich_pdf_lopdf (some c7Doc) {}).1.pdf.page0_width_pt = some 612 ∧
    (enrich_pdf_lopdf (some c7BadDoc) {}).1.pdf.page0_height_pt = none := by
  constructor
  · exact (c7_pdf_geometry.2.1 c7Doc {} rfl).1
  · exact ((c7_pdf_geometry.2.2 c7BadDoc {} _ _ _ _ rfl
      ⟨PdfObj.nonNumeric, by simp, rfl⟩).2).trans rfl

/-- C2, counterexample: an image file whose decode fails inside the
preview builder makes the whole per-file analysis return an error — the
preview stage does propagate decode failures. -/
theorem c2_counterexample :
    analyse_single c2Env c2File = Except.error "image open: decode failed" := rfl

/-- C2, amended: missing external tools do degrade quietly — a video
file without ffmpeg gets an empty frame list and a PDF without pdftoppm
gets no preview, and analysis proceeds — but a decode failure in the
image branch propagates out of the preview stage and fails the per-file
analysis. -/
theorem c2_preview_degradation (env : FileEnv) (file : LoadedFile) :
    (previewIsImage env.mime file.name = false →
      previewIsVideo env.mime file.name = true →
      env.preview.ffmpegFound = false →
      prepare_media_previews env.preview file env.mime =
        Except.ok { video_frames_b64 := some [] } ∧
      (analyse_single env file).toOption.isSome = true) ∧
    (previewIsImage env.mime file.name = false →
      previewIsVideo env.mime file.name = false →
      previewIsPdf env.mime file.name = true →
      env.preview.pdftoppmFound = false →
      prepare_media_previews env.preview file env.mime = Except.ok {} ∧
      (analyse_single env file).toOption.isSome = true) ∧
    (∀ e, previewIsImage env.mime file.name = true →
      env.preview.imageOpen = Except.error e →
      analyse_single env file = Except.error ("image open: " ++ e)) := by
  refine ⟨?_, ?_, ?_⟩
  · intro h1 h2 h3
    have hp : prepare_media_previews env.preview file env.mime =
        Except.ok { video_frames_b64 := some [] } := by
      simp [prepare_media_previews, h1, h2, extract_video_keyframes_b64, h3, Except.map]
    refine ⟨hp, ?_⟩
    rw [analyse_single_isOk, hp]
    rfl
  · intro h1 h2 h3 h4
    have hp : prepare_media_previews env.preview file env.mime = Except.ok {} := by
      simp [prepare_media_previews, h1, h2, h3, rasterize_pdf_page0_b64, h4, Except.map]
    refine ⟨hp, ?_⟩
    rw [analyse_single_isOk, hp]
    rfl
  · intro e h1 hopen
    rw [analyse_single_eq]
    have hp : prepare_media_previews env.preview file env.mime =
        Except.error ("image open: " ++ e) := by
      simp [prepare_media_previews, h1, read_and_downscale_image_b64, hopen, Except.map]
    rw [hp]

/-- C2, witness for the amended theorem: a video file analysed without
ffmpeg degrades to an empty frame list and the analysis still succeeds. -/
theorem c2_witness :
    prepare_media_previews c2VidEnv.preview c2VidFile c2VidEnv.mime =
      Except.ok { video_frames_b64 := some [] } ∧
    (analyse_single c2VidEnv c2VidFile).toOption.isSome = true :=
  (c2_preview_degradation c2VidEnv c2VidFile).1 (by decide) (by decide) (by decide)

/-- C1: in the Canon EOS 80D scenario with no AI endpoint, the returned
record has file type image, both dimensions, empty tags and topics and
an empty rename — but its `raw_keywords` is only the filename-derived
list: the lower-cased model string pushed by the EXIF enricher (visible
in the pre-preview record) is discarded when `analyse_single` overwrites
`tagging.raw_keywords` with the filename-only list at its last line,
contradicting the adjacent source comment that the EXIF push is already
accounted for. -/
theorem c1_exif_keywords_lost :
    analyse_single c1Env c1File = Except.ok c1Out ∧
    "canon eos 80d" ∈ (localEnriched c1Env c1File).tagging.raw_keywords ∧
    c1Out.tagging.raw_keywords = ["jpg"] ∧
    "canon" ∉ c1Out.tagging.raw_keywords ∧
    "eos" ∉ c1Out.tagging.raw_keywords ∧
    "canon eos 80d" ∉ c1Out.tagging.raw_keywords ∧
    c1Out.meta.file_type = "image" ∧
    c1Out.image.width = some 4000 ∧ c1Out.image.height = some 3000 ∧
    c1Out.tagging.tags = [] ∧ c1Out.tagging.topics = [] ∧ c1Out.suggested.rename = "" :=
  ⟨rfl, by decide, rfl, by decide, by decide, by decide, rfl, rfl, rfl, rfl, rfl, rfl⟩

theorem toOption_eq_some {ε α : Type} {x : Except ε α} {a : α} :
    x.toOption = some a ↔ x = Except.ok a := by
  cases x <;> simp [Except.toOption]

theorem analyse_file_some {envOf : LoadedFile → FileEnv} :
    ∀ {files : List LoadedFile} {res : List MediaAnalysis},
      analyse_file envOf files = some res →
      res.length = files.length ∧
      ∀ i (hi : i < files.length) (ho : i < res.length),
        analyse_single (envOf (files.get ⟨i, hi⟩)) (files.get ⟨i, hi⟩) =
          Except.ok (res.get ⟨i, ho⟩)
  | [], res, h => by
    cases h
    exact ⟨rfl, fun i hi => absurd hi (by simp)⟩
  | f :: fs, res, h => by
    rw [analyse_file] at h
    cases ha : (analyse_single (envOf f) f).toOption with
    | none => rw [ha] at h; cases h
    | some a =>
      rw [ha] at h
      cases hrest : analyse_file envOf fs with
      | none => rw [hrest] at h; cases h
      | some rest =>
        rw [hrest] at h
        cases h
        obtain ⟨hlen, hidx⟩ := analyse_file_some hrest
        refine ⟨by simp [hlen], ?_⟩
        intro i hi ho
        cases i with
        | zero => exact toOption_eq_some.mp ha
        | succ n =>
          exact hidx n (by simpa using hi) (by simpa using ho)

theorem analyse_file_mem_fail {envOf : LoadedFile → FileEnv} :
    ∀ {files : List LoadedFile} {f : LoadedFile},
      f ∈ files → (analyse_single (envOf f) f).toOption = none →
      analyse_file envOf files = none
  | [], f, hmem, _ => absurd hmem (by simp)
  | g :: fs, f, hmem, hfail => by
    rw [analyse_file]
    rcases List.mem_cons.mp hmem with rfl | hmem
    · rw [hfail]
    · cases ha : (analyse_single (envOf g) g).toOption with
      | none => rfl
      | some a =>
        rw [analyse_file_mem_fail hmem hfail]

/-- C4: whenever the batch entry point returns a result, it is
index-aligned with the input — same length, and the i-th output is
exactly the successful analysis of the i-th input file, so nothing is
reordered or dropped; and if the analysis of any member of the batch
fails, the whole call fails (the unwrap panic, modelled by `none`). -/
theorem c4_batch_alignment :
    (∀ (envOf : LoadedFile → FileEnv) (files : List LoadedFile) (res : List MediaAnalysis),
        analyse_file envOf files = some res →
        res.length = files.length ∧
        ∀ i (hi : i < files.length) (ho : i < res.length),
          analyse_single (envOf (files.get ⟨i, hi⟩)) (files.get ⟨i, hi⟩) =
            Except.ok (res.get ⟨i, ho⟩)) ∧
    (∀ (envOf : LoadedFile → FileEnv) (files : List LoadedFile) (f : LoadedFile),
        f ∈ files → (analyse_single (envOf f) f).toOption = none →
        analyse_file envOf files = none) :=
  ⟨fun _ _ _ h => analyse_file_some h, fun _ _ _ hmem hfail => analyse_file_mem_fail hmem hfail⟩

/-- C4, witness: a concrete two-file batch analyses to a two-element,
index-aligned result. -/
theorem c4_witness : c4Res.length = c4Files.length :=
  (c4_batch_alignment.1 c4EnvOf c4Files c4Res (by decide)).1

/-- C5: with no endpoint configured — or with a configured endpoint
whose call fails in transport or yields a malformed body — the AI stage
contributes nothing: the returned record has empty tags and topics, the
plain filename-seeded keyword list, and the default suggestion; and the
AI outcome has no influence on whether the analysis succeeds. -/
theorem c5_ai_optional_local_only (env : FileEnv) (file : LoadedFile) (out : MediaAnalysis)
    (hai : env.aiEndpoint = none ∨ env.aiResponse = none)
    (h : analyse_single env file = Except.ok out) :
    maybe_ai_enrichment env = none ∧
    out.tagging.tags = [] ∧
    out.tagging.topics = [] ∧
    out.tagging.raw_keywords = gather_keywords file.name ∧
    out.suggested = {} ∧
    (∀ r, (analyse_single {env with aiResponse := r} file).toOption.isSome =
      (analyse_single env file).toOption.isSome) := by
  have hnone : maybe_ai_enrichment env = none := by
    rcases hai with h1 | h1
    · simp [maybe_ai_enrichment, h1]
    · unfold maybe_ai_enrichment
      cases env.aiEndpoint <;> simp [h1]
  have hout := analyse_single_ok_out h
  subst hout
  rw [mergedRecord_no_ai env file hnone]
  refine ⟨hnone, localEnriched_tags env file, localEnriched_topics env file, rfl,
          localEnriched_suggested env file, ?_⟩
  intro r
  rw [analyse_single_isOk, analyse_single_isOk]

/-- C5, witness: a text file analysed with no endpoint set — the AI
stage is skipped and the keywords are exactly the filename seed. -/
theorem c5_witness :
    maybe_ai_enrichment c5Env = none ∧
    c5Out.tagging.raw_keywords = gather_keywords c5File.name :=
  ⟨(c5_ai_optional_local_only c5Env c5File c5Out (Or.inl rfl) rfl).1,
   (c5_ai_optional_local_only c5Env c5File c5Out (Or.inl rfl) rfl).2.2.2.1⟩

/-- C6: in every successfully returned record, a numeric sub-record can
differ from its all-absent default only when `Metadata.file_type` names
its kind, so at most the matching one of Image/Video/Pdf is populated
and the other two stay at their defaults. -/
theorem c6_numeric_subrecord_exclusive (env : FileEnv) (file : LoadedFile)
    (out : MediaAnalysis) (h : analyse_single env file = Except.ok out) :
    (out.meta.file_type = "image" ∨ out.image = {}) ∧
    (out.meta.file_type = "video" ∨ out.video = {}) ∧
    (out.meta.file_type = "pdf" ∨ out.pdf = {}) := by
  have hout := analyse_single_ok_out h
  subst hout
  cases hty : get_type file.name with
  | Image =>
    refine ⟨Or.inl ?_, Or.inr ?_, Or.inr ?_⟩
    · rw [mergedRecord_meta, localEnriched_file_type, hty]; rfl
    · rw [mergedRecord_video, localEnriched_video_default env file (by rw [hty]; decide)]
    · rw [mergedRecord_pdf, localEnriched_pdf_default env file (by rw [hty]; decide)]
  | Video =>
    refine ⟨Or.inr ?_, Or.inl ?_, Or.inr ?_⟩
    · rw [mergedRecord_image, localEnriched_image_default env file (by rw [hty]; decide)]
    · rw [mergedRecord_meta, localEnriched_file_type, hty]; rfl
    · rw [mergedRecord_pdf, localEnriched_pdf_default env file (by rw [hty]; decide)]
  | Pdf =>
    refine ⟨Or.inr ?_, Or.inr ?_, Or.inl ?_⟩
    · rw [mergedRecord_image, localEnriched_image_default env file (by rw [hty]; decide)]
    · rw [mergedRecord_video, localEnriched_video_default env file (by rw [hty]; decide)]
    · rw [mergedRecord_meta, localEnriched_file_type, hty]; rfl
  | Other =>
    refine ⟨Or.inr ?_, Or.inr ?_, Or.inr ?_⟩
    · rw [mergedRecord_image, localEnriched_image_default env file (by rw [hty]; decide)]
    · rw [mergedRecord_video, localEnriched_video_default env file (by rw [hty]; decide)]
    · rw [mergedRecord_pdf, localEnriched_pdf_default env file (by rw [hty]; decide)]

/-- C6, witness: a PDF whose parse failed keeps all three numeric
sub-records at defaults, consistent with the invariant. -/
theorem c6_witness :
    (c6Out.meta.file_type = "image" ∨ c6Out.image = {}) ∧
    (c6Out.meta.file_type = "video" ∨ c6Out.video = {}) ∧
    (c6Out.meta.file_type = "pdf" ∨ c6Out.pdf = {}) :=
  c6_numeric_subrecord_exclusive c6Env c6File c6Out rfl

/-- C9: in every successfully returned record, no two entries of
`raw_keywords` are equal under ASCII-case-insensitive comparison: the
filename seed is sorted and deduplicated, and AI keywords are appended
only when not already present case-insensitively, with existing entries
kept in order. -/
theorem c9_raw_keywords_ci_distinct (env : FileEnv) (file : LoadedFile)
    (out : MediaAnalysis) (h : analyse_single env file = Except.ok out) :
    PairwiseCI out.tagging.raw_keywords := by
  have hout := analyse_single_ok_out h
  subst hout
  rw [mergedRecord_raw]
  cases hai : maybe_ai_enrichment env with
  | none => exact gather_keywords_pairwiseCI file.name
  | some ai =>
    dsimp only
    rw [applyAi_snd]
    cases ai.raw_keywords with
    | none => exact gather_keywords_pairwiseCI file.name
    | some extra => exact mergeAiKeywords_pairwiseCI (gather_keywords_pairwiseCI file.name)

/-- C9, witness: an AI response repeating "summer" as "Summer" and
adding "NEW" yields a case-insensitively duplicate-free list. -/
theorem c9_witness : PairwiseCI c9Out.tagging.raw_keywords :=
  c9_raw_keywords_ci_distinct c9Env c9File c9Out rfl
